import Mathlib

/-!
Shallow embedding of `utils/eeprom_metadata.py` (miniboot header generator).

The script reads a raw binary payload, builds a 34-byte metadata header
(preamble, application name, creation/write timestamps, CRC32, payload
length), and writes header ++ payload to an output file.  We model bytes as
`Nat` (file bytes are always < 256; hypotheses state this where it matters),
the filesystem as a partial map from paths to (ctime, contents), and Python
exceptions as an explicit error type.
-/

namespace Miniboot

/-- Python exceptions that the script can raise, by the site that raises
them.  `valueError` models the `raise ValueError(...)` in `check_if_binary`
(the spec calls it `UnsupportedInputError`); `typeError` models the
`raise TypeError(...)` in `__main__` (the spec calls it
`UnrecognizedFormatError`); `overflowError` models `int.to_bytes` raising
`OverflowError`; `fileNotFoundError` models `stat`/`open` on a missing
input. -/
inductive ScriptError where
  | overflowError
  | binasciiError
  | fileNotFoundError
  | valueError (msg : String)
  | typeError (msg : String)
deriving DecidableEq

/-- Big-endian base-256 digits of `n`, exactly `len` bytes
(the byte string produced by a successful `n.to_bytes(len, "big")`). -/
def to_bytes_digits : Nat → Nat → List Nat
  | _, 0 => []
  | n, k + 1 => to_bytes_digits (n / 256) k ++ [n % 256]

/-- Python `n.to_bytes(len, "big")` on a nonnegative int: raises
`OverflowError` when `n` does not fit in `len` bytes, otherwise the
big-endian byte string. -/
def to_bytes (n len : Nat) : Except ScriptError (List Nat) :=
  if n < 256 ^ len then .ok (to_bytes_digits n len) else .error .overflowError

/-- Big-endian decoding of a byte string into a number (how a header reader
re-derives an integer field). -/
def decodeBE (l : List Nat) : Nat := l.foldl (fun acc b => 256 * acc + b) 0

/-- ASCII code of the lowercase hex digit for `d < 16` (as emitted by
`binascii.hexlify`). -/
def hexDigitByte (d : Nat) : Nat := if d < 10 then 48 + d else 87 + d

/-- `binascii.hexlify`: each input byte becomes two lowercase-hex ASCII
bytes. -/
def hexlify (l : List Nat) : List Nat :=
  l.flatMap (fun b => [hexDigitByte (b / 16), hexDigitByte (b % 16)])

/-- Value of one hex-digit ASCII byte, as accepted by
`binascii.unhexlify` (digits, lowercase and uppercase letters). -/
def parseHexDigit (c : Nat) : Option Nat :=
  if 48 ≤ c ∧ c ≤ 57 then some (c - 48)
  else if 97 ≤ c ∧ c ≤ 102 then some (c - 87)
  else if 65 ≤ c ∧ c ≤ 70 then some (c - 55)
  else none

/-- `binascii.unhexlify`: pairs of hex-digit ASCII bytes back to bytes;
`binascii.Error` on an odd-length input or a non-hex byte. -/
def unhexlify : List Nat → Except ScriptError (List Nat)
  | [] => .ok []
  | [_] => .error .binasciiError
  | a :: b :: rest =>
    match parseHexDigit a, parseHexDigit b with
    | some x, some y => (unhexlify rest).map (fun l => (16 * x + y) :: l)
    | _, _ => .error .binasciiError

/-- UTF-8 encoding of one code point (what `bytes(s, "utf-8")` does per
character). -/
def utf8Encode (c : Char) : List Nat :=
  let n := c.toNat
  if n < 128 then [n]
  else if n < 2048 then [192 + n / 64, 128 + n % 64]
  else if n < 65536 then [224 + n / 4096, 128 + n / 64 % 64, 128 + n % 64]
  else [240 + n / 262144, 128 + n / 4096 % 64, 128 + n / 64 % 64, 128 + n % 64]

/-- Python `bytes(s, "utf-8")`. -/
def strToUtf8 (s : String) : List Nat := s.data.flatMap utf8Encode

/-- The constant `MINIBOOT_HEADER_PREAMBLE = "ABminiboot"`. -/
def MINIBOOT_HEADER_PREAMBLE : String := "ABminiboot"

/-- `DEFAULT_APP_NAME = "APPNAME"`. -/
def DEFAULT_APP_NAME : String := "APPNAME"

/-- `DEFAULT_OUTPUT_FILE = "output.eeprom"`. -/
def DEFAULT_OUTPUT_FILE : String := "output.eeprom"

/-- Line 68 of the source: `str(application_name).ljust(10, " ")[:10]`.
Python `ljust` and slicing work on characters (code points), so this pads
with spaces to 10 characters and keeps the first 10 characters. -/
def app_name_of (application_name : String) : String :=
  ⟨(application_name.data ++ List.replicate (10 - application_name.data.length) ' ').take 10⟩

/-- zlib / `binascii.crc32` polynomial (reflected). -/
def CRC_POLY : Nat := 0xEDB88320

/-- One bit step of the reflected CRC-32 algorithm. -/
def crcRound (x : Nat) : Nat :=
  if x % 2 = 1 then (x >>> 1) ^^^ CRC_POLY else x >>> 1

/-- Absorb one byte into the CRC register. -/
def crcByte (c b : Nat) : Nat := crcRound^[8] (c ^^^ b)

/-- `binascii.crc32(data)`: standard CRC-32 (ISO-3309 / zlib), initial
value and final xor `0xFFFFFFFF`. -/
def crc32 (data : List Nat) : Nat :=
  (data.foldl crcByte 0xFFFFFFFF) ^^^ 0xFFFFFFFF

/-- Lines 56-82 of the source: everything computed from the payload bytes,
the application name and the two timestamps, up to the assembled
`eeprom_payload = unhexlify(header_hex + app_hex + ctime_hex + epoch_hex +
crc_hex + payload_size_hex) + payload`.  Expressions appear in source
order, so an `OverflowError` from the payload-size encoding (line 59)
fires before anything later is computed. -/
def generate_header_bytes (payload : List Nat) (application_name : String)
    (ctime now : Nat) : Except ScriptError (List Nat) := do
  let payload_size := payload.length
  let payload_size_hex := hexlify (← to_bytes payload_size 2)
  let crc := crc32 payload
  let crc_hex := hexlify (← to_bytes crc 4)
  let header_hex := hexlify (strToUtf8 MINIBOOT_HEADER_PREAMBLE)
  let app_name := app_name_of application_name
  let app_hex := hexlify (strToUtf8 app_name)
  let ctime_hex := hexlify (← to_bytes ctime 4)
  let epoch_hex := hexlify (← to_bytes now 4)
  let eeprom_metadata ← unhexlify
    (header_hex ++ app_hex ++ ctime_hex ++ epoch_hex ++ crc_hex ++ payload_size_hex)
  return eeprom_metadata ++ payload

/-- Index of the last occurrence of `c` in `l`, or `-1` when absent
(CPython `str.rfind`). -/
def rfind : List Char → Char → Int
  | [], _ => -1
  | x :: xs, c =>
    let r := rfind xs c
    if 0 ≤ r then r + 1 else if x = c then 0 else -1

/-- `os.path.splitext` (posixpath): split off the extension at the last
dot of the last path component, except that leading dots of the file name
are not an extension.  Follows CPython `genericpath._splitext` with
`sep = '/'`, `extsep = '.'`. -/
def splitext (p : String) : String × String :=
  let l := p.data
  let sepIndex := rfind l '/'
  let dotIndex := rfind l '.'
  if sepIndex < dotIndex then
    let fi := (sepIndex + 1).toNat
    let d := dotIndex.toNat
    if ((l.drop fi).take (d - fi)).any (fun c => c != '.') then
      (⟨l.take d⟩, ⟨l.drop d⟩)
    else (p, "")
  else (p, "")

/-- `check_if_binary(check)` (lines 153-164).  `binary_file` is the global
the function reads when it builds the `avr-objcopy` command line (in
`__main__` it always equals `check`).  First component: the Python return
value or the raised error; second component: the external-converter
command lines invoked (`subprocess.run` calls), in order.  The
`ValueError` branch raises before any converter invocation. -/
def check_if_binary (binary_file check : String) (dont_auto_convert : Bool) :
    Except ScriptError (Bool × String) × List (List String) :=
  let file_name := (splitext check).1
  let file_ext := (splitext check).2
  if file_ext = ".bin" then
    (.ok (true, check), [])
  else if file_ext = ".hex" then
    if dont_auto_convert = false then
      (.ok (true, file_name ++ ".bin"),
        [["avr-objcopy", "-I", "ihex", binary_file, "-O", "binary", file_name ++ ".bin"]])
    else
      (.error (.valueError "Given file was .hex, but not allowed to convert"), [])
  else
    (.ok (false, check), [])

/-- `generate_miniboot_header` (lines 32-95).  `binary_file : Option String`
models the Python argument: `none` is Python `None`, `some ""` the empty
string; both are falsy, making the function return `""` at line 40 before
touching the filesystem.  `fs` maps a path to `(ctime, contents)` —
`stat` and `open` on a path not in `fs` raise.  First component: the
Python return value (`some ""` for the early return, `none` for the
implicit `None`) or the raised error; second component: the
`(path, bytes)` writes performed, in order (line 85 writes the fully
assembled image once). -/
def generate_miniboot_header (binary_file : Option String)
    (application_name : String) (output_file : String)
    (fs : String → Option (Nat × List Nat)) (now : Nat) :
    Except ScriptError (Option String) × List (String × List Nat) :=
  match binary_file with
  | none => (.ok (some ""), [])
  | some bf =>
    if bf = "" then (.ok (some ""), [])
    else
      match fs bf with
      | none => (.error .fileNotFoundError, [])
      | some (ctime, payload) =>
        match generate_header_bytes payload application_name ctime now with
        | .error e => (.error e, [])
        | .ok eeprom_payload => (.ok none, [(output_file, eeprom_payload)])

/-- The `__main__` block (lines 166-178): `check_if_binary` on the input
path, `TypeError` when it is neither recognized format, then
`generate_miniboot_header` on the (possibly converted) path.  Result:
(outcome, files written by the script, converter command lines run). -/
def mainRun (binary_file application_name output_file : String)
    (dont_auto_convert : Bool) (fs : String → Option (Nat × List Nat))
    (now : Nat) :
    Except ScriptError Unit × List (String × List Nat) × List (List String) :=
  match check_if_binary binary_file binary_file dont_auto_convert with
  | (.error e, convRuns) => (.error e, [], convRuns)
  | (.ok (is_valid, new_filepath), convRuns) =>
    if is_valid = false then
      (.error (.typeError "Given file was not a .bin or a .hex"), [], convRuns)
    else
      match generate_miniboot_header (some new_filepath) application_name
          output_file fs now with
      | (.error e, written) => (.error e, written, convRuns)
      | (.ok _, written) => (.ok (), written, convRuns)

/-- Binding a raised error short-circuits the rest of the computation. -/
theorem except_bind_error {α β : Type} (e : ScriptError) (f : α → Except ScriptError β) :
    (Except.error e >>= f : Except ScriptError β) = Except.error e := rfl

/-- Binding a successful value continues with it. -/
theorem except_bind_ok {α β : Type} (a : α) (f : α → Except ScriptError β) :
    (Except.ok a >>= f : Except ScriptError β) = f a := rfl

/-- Mapping over a successful value. -/
theorem except_map_ok {α β : Type} (g : α → β) (a : α) :
    (Except.ok a : Except ScriptError α).map g = Except.ok (g a) := rfl

/-- `to_bytes` succeeds exactly on values that fit. -/
theorem to_bytes_ok {n k : Nat} (h : n < 256 ^ k) :
    to_bytes n k = .ok (to_bytes_digits n k) := if_pos h

/-- A successful `to_bytes` emits exactly `k` bytes. -/
theorem to_bytes_digits_length (n k : Nat) : (to_bytes_digits n k).length = k := by
  induction k generalizing n with
  | zero => rfl
  | succ k ih => simp [to_bytes_digits, ih]

/-- Every emitted byte is a byte. -/
theorem to_bytes_digits_lt (n k : Nat) : ∀ b ∈ to_bytes_digits n k, b < 256 := by
  induction k generalizing n with
  | zero => intro b hb; simp [to_bytes_digits] at hb
  | succ k ih =>
    intro b hb
    simp only [to_bytes_digits, List.mem_append, List.mem_singleton] at hb
    rcases hb with hb | hb
    · exact ih _ b hb
    · subst hb; exact Nat.mod_lt _ (by norm_num)

theorem decodeBE_append_singleton (xs : List Nat) (b : Nat) :
    decodeBE (xs ++ [b]) = 256 * decodeBE xs + b := by
  simp [decodeBE, List.foldl_append]

/-- Big-endian decoding inverts `to_bytes` on values that fit. -/
theorem decodeBE_to_bytes_digits (k n : Nat) (h : n < 256 ^ k) :
    decodeBE (to_bytes_digits n k) = n := by
  induction k generalizing n with
  | zero =>
    simp only [pow_zero, Nat.lt_one_iff] at h
    subst h; rfl
  | succ k ih =>
    have hd : n / 256 < 256 ^ k := by
      rw [Nat.div_lt_iff_lt_mul (by norm_num)]
      calc n < 256 ^ (k + 1) := h
        _ = 256 ^ k * 256 := by ring
    rw [to_bytes_digits, decodeBE_append_singleton, ih _ hd, Nat.div_add_mod]

/-- `unhexlify` inverts `hexlify` digit-wise. -/
theorem parseHexDigit_hexDigitByte : ∀ d, d < 16 → parseHexDigit (hexDigitByte d) = some d := by
  decide

theorem hexlify_append (l₁ l₂ : List Nat) :
    hexlify (l₁ ++ l₂) = hexlify l₁ ++ hexlify l₂ :=
  List.flatMap_append l₁ l₂ _

/-- `unhexlify` inverts `hexlify` on byte lists (which is the only way the
script feeds it). -/
theorem unhexlify_hexlify (l : List Nat) (h : ∀ b ∈ l, b < 256) :
    unhexlify (hexlify l) = .ok l := by
  induction l with
  | nil => rfl
  | cons b t ih =>
    have hb : b < 256 := h b (List.mem_cons_self b t)
    have hdiv : b / 16 < 16 := by omega
    have hmod : b % 16 < 16 := by omega
    have ht : ∀ x ∈ t, x < 256 := fun x hx => h x (List.mem_cons_of_mem _ hx)
    show unhexlify (hexlify (b :: t)) = _
    simp only [hexlify, List.flatMap_cons, List.cons_append, List.nil_append]
    rw [unhexlify, parseHexDigit_hexDigitByte _ hdiv, parseHexDigit_hexDigitByte _ hmod]
    show (unhexlify (hexlify t)).map _ = _
    rw [ih ht]
    show Except.ok ((16 * (b / 16) + b % 16) :: t) = _
    rw [Nat.div_add_mod]

/-- Every Lean `Char` is a Unicode scalar value. -/
theorem char_toNat_lt (c : Char) : c.toNat < 1114112 := by
  rcases c.valid with h | ⟨_, h⟩
  · exact Nat.lt_trans h (by norm_num)
  · exact h

/-- UTF-8 encoding emits bytes. -/
theorem utf8Encode_lt (c : Char) : ∀ b ∈ utf8Encode c, b < 256 := by
  intro b hb
  have hc : c.toNat < 1114112 := char_toNat_lt c
  unfold utf8Encode at hb
  by_cases h1 : c.toNat < 128
  · simp [h1] at hb; omega
  · by_cases h2 : c.toNat < 2048
    · simp [h1, h2] at hb; rcases hb with hb | hb <;> omega
    · by_cases h3 : c.toNat < 65536
      · simp [h1, h2, h3] at hb; rcases hb with hb | hb | hb <;> omega
      · simp [h1, h2, h3] at hb; rcases hb with hb | hb | hb | hb <;> omega

theorem strToUtf8_lt (s : String) : ∀ b ∈ strToUtf8 s, b < 256 := by
  intro b hb
  simp only [strToUtf8, List.mem_flatMap] at hb
  obtain ⟨c, _, hbc⟩ := hb
  exact utf8Encode_lt c b hbc

/-- An ASCII character is one UTF-8 byte. -/
theorem utf8Encode_ascii {c : Char} (h : c.toNat < 128) : utf8Encode c = [c.toNat] := by
  unfold utf8Encode; simp [h]

/-- A string of ASCII characters UTF-8-encodes to one byte per character. -/
theorem utf8_length_of_ascii (l : List Char) (h : ∀ c ∈ l, c.toNat < 128) :
    (l.flatMap utf8Encode).length = l.length := by
  induction l with
  | nil => rfl
  | cons c t ih =>
    rw [List.flatMap_cons, utf8Encode_ascii (h c (List.mem_cons_self c t))]
    simp [ih (fun x hx => h x (List.mem_cons_of_mem _ hx))]

/-- The normalized application name is always exactly 10 characters. -/
theorem app_name_of_data_length (A : String) : (app_name_of A).data.length = 10 := by
  show ((A.data ++ List.replicate (10 - A.data.length) ' ').take 10).length = 10
  rw [List.length_take, List.length_append, List.length_replicate]
  omega

/-- One CRC bit-round keeps the register in 32 bits. -/
theorem crcRound_lt {x : Nat} (h : x < 4294967296) : crcRound x < 4294967296 := by
  have h32 : (4294967296 : Nat) = 2 ^ 32 := by norm_num
  have hs : x >>> 1 < 4294967296 := by rw [Nat.shiftRight_eq_div_pow]; omega
  unfold crcRound
  split
  · rw [h32] at hs ⊢
    exact Nat.xor_lt_two_pow hs (by norm_num [CRC_POLY])
  · exact hs

theorem crcRound_iterate_lt (k : Nat) {x : Nat} (h : x < 4294967296) :
    crcRound^[k] x < 4294967296 := by
  induction k generalizing x with
  | zero => simpa using h
  | succ k ih => rw [Function.iterate_succ_apply]; exact ih (crcRound_lt h)

theorem crcByte_lt {c b : Nat} (hc : c < 4294967296) (hb : b < 256) :
    crcByte c b < 4294967296 := by
  have h32 : (4294967296 : Nat) = 2 ^ 32 := by norm_num
  apply crcRound_iterate_lt
  rw [h32]
  exact Nat.xor_lt_two_pow (h32 ▸ hc) (by omega)

theorem crc32_foldl_lt (l : List Nat) (init : Nat) (hi : init < 4294967296)
    (h : ∀ b ∈ l, b < 256) : l.foldl crcByte init < 4294967296 := by
  induction l generalizing init with
  | nil => simpa using hi
  | cons b t ih =>
    simp only [List.foldl_cons]
    exact ih _ (crcByte_lt hi (h b (List.mem_cons_self b t)))
      (fun x hx => h x (List.mem_cons_of_mem _ hx))

/-- `binascii.crc32` always fits in an unsigned 32-bit word. -/
theorem crc32_lt (l : List Nat) (h : ∀ b ∈ l, b < 256) : crc32 l < 4294967296 := by
  have h32 : (4294967296 : Nat) = 2 ^ 32 := by norm_num
  unfold crc32
  rw [h32]
  exact Nat.xor_lt_two_pow (h32 ▸ crc32_foldl_lt l _ (by norm_num) h) (by norm_num)

/-- The metadata block the script assembles for in-range inputs:
preamble, application name, creation time, write time, CRC32, payload
length, in that order. -/
def metadataBytes (payload : List Nat) (application_name : String)
    (ctime now : Nat) : List Nat :=
  strToUtf8 MINIBOOT_HEADER_PREAMBLE ++
    strToUtf8 (app_name_of application_name) ++
    to_bytes_digits ctime 4 ++
    to_bytes_digits now 4 ++
    to_bytes_digits (crc32 payload) 4 ++
    to_bytes_digits payload.length 2

/-- Master lemma: for a payload of bytes that fits in 16 bits and 32-bit
timestamps, the hexlify/unhexlify pipeline of lines 56-82 produces exactly
the metadata block followed by the unmodified payload. -/
theorem generate_header_bytes_eq (payload : List Nat) (name : String)
    (ctime now : Nat) (hb : ∀ b ∈ payload, b < 256)
    (hlen : payload.length < 65536) (hct : ctime < 4294967296)
    (hnow : now < 4294967296) :
    generate_header_bytes payload name ctime now =
      .ok (metadataBytes payload name ctime now ++ payload) := by
  have hcrc : crc32 payload < 4294967296 := crc32_lt payload hb
  have e2 : (256 : Nat) ^ 2 = 65536 := by norm_num
  have e4 : (256 : Nat) ^ 4 = 4294967296 := by norm_num
  have t1 : to_bytes payload.length 2 = .ok (to_bytes_digits payload.length 2) :=
    to_bytes_ok (by rw [e2]; exact hlen)
  have t2 : to_bytes (crc32 payload) 4 = .ok (to_bytes_digits (crc32 payload) 4) :=
    to_bytes_ok (by rw [e4]; exact hcrc)
  have t3 : to_bytes ctime 4 = .ok (to_bytes_digits ctime 4) :=
    to_bytes_ok (by rw [e4]; exact hct)
  have t4 : to_bytes now 4 = .ok (to_bytes_digits now 4) :=
    to_bytes_ok (by rw [e4]; exact hnow)
  have hall : ∀ b ∈ strToUtf8 MINIBOOT_HEADER_PREAMBLE ++
      strToUtf8 (app_name_of name) ++ to_bytes_digits ctime 4 ++
      to_bytes_digits now 4 ++ to_bytes_digits (crc32 payload) 4 ++
      to_bytes_digits payload.length 2, b < 256 := by
    intro b hmem
    simp only [List.mem_append, or_assoc] at hmem
    rcases hmem with h | h | h | h | h | h
    · exact strToUtf8_lt _ b h
    · exact strToUtf8_lt _ b h
    · exact to_bytes_digits_lt _ _ b h
    · exact to_bytes_digits_lt _ _ b h
    · exact to_bytes_digits_lt _ _ b h
    · exact to_bytes_digits_lt _ _ b h
  simp only [generate_header_bytes, t1, t2, t3, t4, except_bind_ok]
  rw [← hexlify_append, ← hexlify_append, ← hexlify_append, ← hexlify_append,
    ← hexlify_append]
  rw [unhexlify_hexlify _ hall, except_bind_ok]
  rfl

/-- Taking exactly the length of a left factor of an append. -/
theorem take_append_len {α : Type} {l₁ : List α} (l₂ : List α) {n : Nat}
    (h : l₁.length = n) : (l₁ ++ l₂).take n = l₁ := by
  subst h; exact List.take_left l₁ l₂

/-- Dropping exactly the length of a left factor of an append. -/
theorem drop_append_len {α : Type} {l₁ : List α} (l₂ : List α) {n : Nat}
    (h : l₁.length = n) : (l₁ ++ l₂).drop n = l₂ := by
  subst h; exact List.drop_left l₁ l₂

theorem preamble_utf8_length : (strToUtf8 MINIBOOT_HEADER_PREAMBLE).length = 10 := rfl

/-- When the normalized name is ASCII, its field is exactly 10 bytes. -/
theorem app_field_length {A : String}
    (h : ∀ c ∈ (app_name_of A).data, c.toNat < 128) :
    (strToUtf8 (app_name_of A)).length = 10 := by
  show ((app_name_of A).data.flatMap utf8Encode).length = 10
  rw [utf8_length_of_ascii _ h, app_name_of_data_length]

/-- The metadata block of an ASCII name is exactly 34 bytes. -/
theorem metadataBytes_length (payload : List Nat) (name : String)
    (ctime now : Nat) (hascii : ∀ c ∈ (app_name_of name).data, c.toNat < 128) :
    (metadataBytes payload name ctime now).length = 34 := by
  simp [metadataBytes, List.length_append, to_bytes_digits_length,
    preamble_utf8_length, app_field_length hascii]

set_option maxRecDepth 20000 in
/-- The `binascii.crc32` reference test vector: CRC-32 of b"123456789" is
0xCBF43926. -/
theorem crc32_check_vector : crc32 [49, 50, 51, 52, 53, 54, 55, 56, 57] = 0xCBF43926 := rfl

/-- The assembled image, right-associated for offset reasoning. -/
theorem image_assoc (payload : List Nat) (name : String) (ctime now : Nat) :
    metadataBytes payload name ctime now ++ payload =
      strToUtf8 MINIBOOT_HEADER_PREAMBLE ++
        (strToUtf8 (app_name_of name) ++
          (to_bytes_digits ctime 4 ++
            (to_bytes_digits now 4 ++
              (to_bytes_digits (crc32 payload) 4 ++
                (to_bytes_digits payload.length 2 ++ payload))))) := by
  simp [metadataBytes, List.append_assoc]

/-- Each header field sits at its declared offset and width in the image
(for an ASCII-normalized name). -/
theorem image_fields (payload : List Nat) (name : String) (ctime now : Nat)
    (hascii : ∀ c ∈ (app_name_of name).data, c.toNat < 128) :
    (metadataBytes payload name ctime now ++ payload).take 10 =
        strToUtf8 MINIBOOT_HEADER_PREAMBLE ∧
      ((metadataBytes payload name ctime now ++ payload).drop 10).take 10 =
        strToUtf8 (app_name_of name) ∧
      ((metadataBytes payload name ctime now ++ payload).drop 20).take 4 =
        to_bytes_digits ctime 4 ∧
      ((metadataBytes payload name ctime now ++ payload).drop 24).take 4 =
        to_bytes_digits now 4 ∧
      ((metadataBytes payload name ctime now ++ payload).drop 28).take 4 =
        to_bytes_digits (crc32 payload) 4 ∧
      ((metadataBytes payload name ctime now ++ payload).drop 32).take 2 =
        to_bytes_digits payload.length 2 ∧
      (metadataBytes payload name ctime now ++ payload).drop 34 = payload := by
  rw [image_assoc]
  generalize hPre : strToUtf8 MINIBOOT_HEADER_PREAMBLE = P
  generalize hA : strToUtf8 (app_name_of name) = A
  generalize hC : to_bytes_digits ctime 4 = C
  generalize hW : to_bytes_digits now 4 = W
  generalize hR : to_bytes_digits (crc32 payload) 4 = R
  generalize hL : to_bytes_digits payload.length 2 = L
  have hPlen : P.length = 10 := hPre ▸ preamble_utf8_length
  have hAlen : A.length = 10 := hA ▸ app_field_length hascii
  have hClen : C.length = 4 := hC ▸ to_bytes_digits_length ctime 4
  have hWlen : W.length = 4 := hW ▸ to_bytes_digits_length now 4
  have hRlen : R.length = 4 := hR ▸ to_bytes_digits_length (crc32 payload) 4
  have hLlen : L.length = 2 := hL ▸ to_bytes_digits_length payload.length 2
  have h10 : (P ++ (A ++ (C ++ (W ++ (R ++ (L ++ payload)))))).drop 10 =
      A ++ (C ++ (W ++ (R ++ (L ++ payload)))) := drop_append_len _ hPlen
  have h20 : (P ++ (A ++ (C ++ (W ++ (R ++ (L ++ payload)))))).drop 20 =
      C ++ (W ++ (R ++ (L ++ payload))) := by
    rw [show (20 : Nat) = 10 + 10 from rfl, ← List.drop_drop, h10]
    exact drop_append_len _ hAlen
  have h24 : (P ++ (A ++ (C ++ (W ++ (R ++ (L ++ payload)))))).drop 24 =
      W ++ (R ++ (L ++ payload)) := by
    rw [show (24 : Nat) = 20 + 4 from rfl, ← List.drop_drop, h20]
    exact drop_append_len _ hClen
  have h28 : (P ++ (A ++ (C ++ (W ++ (R ++ (L ++ payload)))))).drop 28 =
      R ++ (L ++ payload) := by
    rw [show (28 : Nat) = 24 + 4 from rfl, ← List.drop_drop, h24]
    exact drop_append_len _ hWlen
  have h32 : (P ++ (A ++ (C ++ (W ++ (R ++ (L ++ payload)))))).drop 32 =
      L ++ payload := by
    rw [show (32 : Nat) = 28 + 4 from rfl, ← List.drop_drop, h28]
    exact drop_append_len _ hRlen
  have h34 : (P ++ (A ++ (C ++ (W ++ (R ++ (L ++ payload)))))).drop 34 = payload := by
    rw [show (34 : Nat) = 32 + 2 from rfl, ← List.drop_drop, h32]
    exact drop_append_len _ hLlen
  refine ⟨take_append_len _ hPlen, ?_, ?_, ?_, ?_, ?_, h34⟩
  · rw [h10]; exact take_append_len _ hAlen
  · rw [h20]; exact take_append_len _ hClen
  · rw [h24]; exact take_append_len _ hWlen
  · rw [h28]; exact take_append_len _ hRlen
  · rw [h32]; exact take_append_len _ hLlen

/-- Claim C1: evaluating the code at the failing input.  For any payload of
exactly 65536 bytes the script does not wrap the length field to 0: the
`payload_size.to_bytes(2, "big")` call at line 59 raises `OverflowError`
and no header is produced, although the code comment at line 58 announces
truncation to a `uint16_t`. -/
theorem C1_overflow_at_65536 (payload : List Nat) (name : String)
    (ctime now : Nat) (h : payload.length = 65536) :
    generate_header_bytes payload name ctime now = .error .overflowError := by
  simp [generate_header_bytes, to_bytes, h, except_bind_error]

theorem C1_overflow_at_65536_witness :
    (List.replicate 65536 (0 : Nat)).length = 65536 ∧
      generate_header_bytes (List.replicate 65536 0) "APPNAME" 0 0 =
        .error .overflowError :=
  ⟨List.length_replicate 65536 0,
    C1_overflow_at_65536 (List.replicate 65536 0) "APPNAME" 0 0
      (List.length_replicate 65536 0)⟩

/-- Claim C2: counterexample to the claim as stated.  With application
name "é" (one non-ASCII character) and the empty payload, the generated
image is 35 bytes, not 34 + 0: the name is padded to 10 characters, which
UTF-8-encode to 11 bytes, so the header itself is 35 bytes. -/
theorem C2_counterexample :
    (generate_header_bytes [] "é" 0 0).map List.length = .ok 35 ∧
      (35 : Nat) ≠ 34 + ([] : List Nat).length :=
  ⟨rfl, by decide⟩

/-- Claim C2 (amended): for payloads shorter than 65536 bytes, 32-bit
timestamps, and application names whose normalized 10-character form is
ASCII, the header is exactly 34 bytes and the image is exactly
34 + len(P) bytes. -/
theorem C2_image_length (payload : List Nat) (name : String) (ctime now : Nat)
    (hb : ∀ b ∈ payload, b < 256) (hlen : payload.length < 65536)
    (hct : ctime < 4294967296) (hnow : now < 4294967296)
    (hascii : ∀ c ∈ (app_name_of name).data, c.toNat < 128) :
    (metadataBytes payload name ctime now).length = 34 ∧
      (generate_header_bytes payload name ctime now).map List.length =
        .ok (34 + payload.length) := by
  refine ⟨metadataBytes_length payload name ctime now hascii, ?_⟩
  rw [generate_header_bytes_eq payload name ctime now hb hlen hct hnow,
    except_map_ok, List.length_append,
    metadataBytes_length payload name ctime now hascii]

theorem C2_image_length_witness :
    (metadataBytes (List.replicate 10 0) "Demo" 0 0).length = 34 ∧
      (generate_header_bytes (List.replicate 10 0) "Demo" 0 0).map List.length =
        .ok (34 + (List.replicate 10 (0 : Nat)).length) :=
  C2_image_length (List.replicate 10 0) "Demo" 0 0 (by decide) (by decide)
    (by decide) (by decide) (by decide)

/-- Claim C3: counterexample to the claim as stated.  For the 11-character
name made of eleven copies of "é", the encoded name field is 20 bytes —
not 10 — and it is not the first 10 bytes of the UTF-8 encoding of the
name: Python slices the string by characters before encoding, so
multi-byte characters are never split. -/
theorem C3_counterexample :
    (strToUtf8 (app_name_of "ééééééééééé")).length = 20 ∧
      strToUtf8 (app_name_of "ééééééééééé") ≠
        (strToUtf8 "ééééééééééé").take 10 :=
  ⟨rfl, by decide⟩

/-- Claim C3 (amended): the normalized application name is always exactly
10 characters — names of at most 10 characters are right-padded with
ASCII spaces, longer names are cut after 10 characters (truncation
measured in characters, never splitting a multi-byte character), with no
error raised; the encoded field is exactly 10 bytes when those 10
characters are ASCII. -/
theorem C3_name_field (A : String) :
    (app_name_of A).data.length = 10 ∧
      (A.data.length ≤ 10 →
        (app_name_of A).data = A.data ++ List.replicate (10 - A.data.length) ' ') ∧
      (10 < A.data.length → (app_name_of A).data = A.data.take 10) ∧
      ((∀ c ∈ (app_name_of A).data, c.toNat < 128) →
        (strToUtf8 (app_name_of A)).length = 10) := by
  refine ⟨app_name_of_data_length A, ?_, ?_, fun h => app_field_length h⟩
  · intro h
    show (A.data ++ List.replicate (10 - A.data.length) ' ').take 10 = _
    apply List.take_of_length_le
    rw [List.length_append, List.length_replicate]
    omega
  · intro h
    show (A.data ++ List.replicate (10 - A.data.length) ' ').take 10 = _
    rw [Nat.sub_eq_zero_of_le (Nat.le_of_lt h)]
    simp

theorem C3_name_field_witness :
    (app_name_of "1234567890A").data = ("1234567890A" : String).data.take 10 :=
  (C3_name_field "1234567890A").2.2.1 (by decide)

/-- Claim C4: the CRC32 field at offsets 28..31 is the big-endian standard
CRC-32 (ISO-3309 / zlib) of exactly the payload bytes; on the reference
vector b"123456789" the CRC is 0xCBF43926 and on the empty payload it
is 0. -/
theorem C4_crc32_field (payload : List Nat) (name : String) (ctime now : Nat)
    (hb : ∀ b ∈ payload, b < 256) (hlen : payload.length < 65536)
    (hct : ctime < 4294967296) (hnow : now < 4294967296)
    (hascii : ∀ c ∈ (app_name_of name).data, c.toNat < 128) :
    (generate_header_bytes payload name ctime now).map
        (fun img => decodeBE ((img.drop 28).take 4)) = .ok (crc32 payload) ∧
      crc32 [49, 50, 51, 52, 53, 54, 55, 56, 57] = 0xCBF43926 ∧
      crc32 [] = 0 := by
  refine ⟨?_, crc32_check_vector, rfl⟩
  rw [generate_header_bytes_eq payload name ctime now hb hlen hct hnow,
    except_map_ok, (image_fields payload name ctime now hascii).2.2.2.2.1,
    decodeBE_to_bytes_digits 4 _
      (by rw [show (256 : Nat) ^ 4 = 4294967296 from by norm_num]
          exact crc32_lt payload hb)]

theorem C4_crc32_field_witness :
    (generate_header_bytes [49, 50, 51, 52, 53, 54, 55, 56, 57] "Demo" 0 0).map
        (fun img => decodeBE ((img.drop 28).take 4)) =
      .ok (crc32 [49, 50, 51, 52, 53, 54, 55, 56, 57]) :=
  (C4_crc32_field [49, 50, 51, 52, 53, 54, 55, 56, 57] "Demo" 0 0 (by decide)
    (by decide) (by decide) (by decide) (by decide)).1

/-- Claim C8: round-trip.  For in-range inputs (payload bytes, length
below 65536, 32-bit timestamps, ASCII-normalized name), splitting the
image after 34 bytes and decoding each field at its declared offset and
width reproduces exactly the values used to build it, and the preamble
field is the encoding of "ABminiboot". -/
theorem C8_roundtrip (payload : List Nat) (A : String) (C W : Nat)
    (hb : ∀ b ∈ payload, b < 256) (hlen : payload.length < 65536)
    (hC : C < 4294967296) (hW : W < 4294967296)
    (hascii : ∀ c ∈ (app_name_of A).data, c.toNat < 128) :
    generate_header_bytes payload A C W =
        .ok (metadataBytes payload A C W ++ payload) ∧
      (metadataBytes payload A C W).length = 34 ∧
      (metadataBytes payload A C W ++ payload).take 10 = strToUtf8 "ABminiboot" ∧
      ((metadataBytes payload A C W ++ payload).drop 10).take 10 =
        strToUtf8 (app_name_of A) ∧
      decodeBE (((metadataBytes payload A C W ++ payload).drop 20).take 4) = C ∧
      decodeBE (((metadataBytes payload A C W ++ payload).drop 24).take 4) = W ∧
      decodeBE (((metadataBytes payload A C W ++ payload).drop 28).take 4) =
        crc32 payload ∧
      decodeBE (((metadataBytes payload A C W ++ payload).drop 32).take 2) =
        payload.length ∧
      (metadataBytes payload A C W ++ payload).drop 34 = payload := by
  obtain ⟨f1, f2, f3, f4, f5, f6, f7⟩ := image_fields payload A C W hascii
  have e4 : (256 : Nat) ^ 4 = 4294967296 := by norm_num
  have e2 : (256 : Nat) ^ 2 = 65536 := by norm_num
  refine ⟨generate_header_bytes_eq payload A C W hb hlen hC hW,
    metadataBytes_length payload A C W hascii, f1, f2, ?_, ?_, ?_, ?_, f7⟩
  · rw [f3, decodeBE_to_bytes_digits 4 C (by rw [e4]; exact hC)]
  · rw [f4, decodeBE_to_bytes_digits 4 W (by rw [e4]; exact hW)]
  · rw [f5, decodeBE_to_bytes_digits 4 _ (by rw [e4]; exact crc32_lt payload hb)]
  · rw [f6, decodeBE_to_bytes_digits 2 _ (by rw [e2]; exact hlen)]

theorem C8_roundtrip_witness :
    decodeBE (((metadataBytes (List.replicate 10 0) "Demo" 1000 2000 ++
        List.replicate 10 0).drop 20).take 4) = 1000 ∧
      decodeBE (((metadataBytes (List.replicate 10 0) "Demo" 1000 2000 ++
        List.replicate 10 0).drop 32).take 2) = (List.replicate 10 (0 : Nat)).length :=
  ⟨(C8_roundtrip (List.replicate 10 0) "Demo" 1000 2000 (by decide) (by decide)
      (by decide) (by decide) (by decide)).2.2.2.2.1,
    (C8_roundtrip (List.replicate 10 0) "Demo" 1000 2000 (by decide) (by decide)
      (by decide) (by decide) (by decide)).2.2.2.2.2.2.2.1⟩

/-- A filesystem with no readable files (used to instantiate theorems at
concrete inputs). -/
def emptyFS : String → Option (Nat × List Nat) := fun _ => none

/-- Claim C5: a `.hex` input with conversion disallowed fails with the
`ValueError` of line 162 (the spec's `UnsupportedInputError`), invokes no
external converter, and writes no output file. -/
theorem C5_hex_conversion_disallowed (bf an of : String)
    (fs : String → Option (Nat × List Nat)) (now : Nat)
    (h : (splitext bf).2 = ".hex") :
    mainRun bf an of true fs now =
      (.error (.valueError "Given file was .hex, but not allowed to convert"),
        [], []) := by
  simp [mainRun, check_if_binary, h]

theorem C5_hex_conversion_disallowed_witness :
    mainRun "fw.hex" "APPNAME" "output.eeprom" true emptyFS 0 =
      (.error (.valueError "Given file was .hex, but not allowed to convert"),
        [], []) :=
  C5_hex_conversion_disallowed "fw.hex" "APPNAME" "output.eeprom" emptyFS 0
    (by decide)

/-- Claim C6: an input whose extension is neither ".bin" nor ".hex" fails
with the `TypeError` of line 175 (the spec's `UnrecognizedFormatError`),
with no header computation, no converter invocation and no file opened
for writing, whatever the filesystem contains. -/
theorem C6_unrecognized_format (bf an of : String) (d : Bool)
    (fs : String → Option (Nat × List Nat)) (now : Nat)
    (h1 : (splitext bf).2 ≠ ".bin") (h2 : (splitext bf).2 ≠ ".hex") :
    mainRun bf an of d fs now =
      (.error (.typeError "Given file was not a .bin or a .hex"), [], []) := by
  simp [mainRun, check_if_binary, h1, h2]

theorem C6_unrecognized_format_witness :
    mainRun "fw.elf" "APPNAME" "output.eeprom" false emptyFS 0 =
      (.error (.typeError "Given file was not a .bin or a .hex"), [], []) :=
  C6_unrecognized_format "fw.elf" "APPNAME" "output.eeprom" false emptyFS 0
    (by decide) (by decide)

/-- Claim C7: the output file is written only once the complete image is
assembled.  Every error leaves the write list empty, and any write that
happens is a single write of the output path with the fully assembled
image (the successful result of the header+payload assembly). -/
theorem C7_no_partial_write (binary_file : Option String) (an of : String)
    (fs : String → Option (Nat × List Nat)) (now : Nat) :
    (∀ e, (generate_miniboot_header binary_file an of fs now).1 = .error e →
      (generate_miniboot_header binary_file an of fs now).2 = []) ∧
    (∀ f content,
      (f, content) ∈ (generate_miniboot_header binary_file an of fs now).2 →
      f = of ∧ ∃ p ctime payload, binary_file = some p ∧
        fs p = some (ctime, payload) ∧
        generate_header_bytes payload an ctime now = .ok content ∧
        (generate_miniboot_header binary_file an of fs now).1 = .ok none) := by
  cases binary_file with
  | none =>
    exact ⟨fun e _ => rfl, fun f c h => by simp [generate_miniboot_header] at h⟩
  | some bf =>
    by_cases hbf : bf = ""
    · subst hbf
      exact ⟨fun e _ => rfl, fun f c h => by simp [generate_miniboot_header] at h⟩
    · cases hfs : fs bf with
      | none =>
        refine ⟨fun e _ => ?_, fun f c h => ?_⟩
        · simp [generate_miniboot_header, hbf, hfs]
        · simp [generate_miniboot_header, hbf, hfs] at h
      | some v =>
        obtain ⟨ctime, payload⟩ := v
        cases hg : generate_header_bytes payload an ctime now with
        | error e =>
          refine ⟨fun x _ => ?_, fun f c h => ?_⟩
          · simp [generate_miniboot_header, hbf, hfs, hg]
          · simp [generate_miniboot_header, hbf, hfs, hg] at h
        | ok img =>
          refine ⟨fun x hx => ?_, fun f c h => ?_⟩
          · simp [generate_miniboot_header, hbf, hfs, hg] at hx
          · simp [generate_miniboot_header, hbf, hfs, hg] at h
            obtain ⟨hf, hc⟩ := h
            subst hf; subst hc
            exact ⟨rfl, bf, ctime, payload, rfl, hfs, hg,
              by simp [generate_miniboot_header, hbf, hfs, hg]⟩

theorem C7_no_partial_write_witness :
    (generate_miniboot_header (some "fw.bin") "APPNAME" "output.eeprom"
      emptyFS 0).2 = [] :=
  (C7_no_partial_write (some "fw.bin") "APPNAME" "output.eeprom" emptyFS 0).1
    .fileNotFoundError rfl

/-- Claim C9: a falsy input path — Python `None` or the empty string —
makes `generate_miniboot_header` return `""` at line 40, reading nothing
from the filesystem (the result is the same for every `fs`) and writing
no output file. -/
theorem C9_falsy_input (an of : String) (fs : String → Option (Nat × List Nat))
    (now : Nat) :
    generate_miniboot_header none an of fs now = (.ok (some ""), []) ∧
      generate_miniboot_header (some "") an of fs now = (.ok (some ""), []) :=
  ⟨rfl, rfl⟩

/-- Claim C10: the format dispatch compares the extension by exact string
equality: every extension other than the lowercase ".bin" and ".hex" is
classified as unrecognized — in particular ".BIN" and ".Hex" — while the
lowercase forms are recognized. -/
theorem C10_case_sensitive_dispatch :
    (∀ p bf : String, ∀ d : Bool,
      (splitext p).2 ≠ ".bin" → (splitext p).2 ≠ ".hex" →
        check_if_binary bf p d = (.ok (false, p), [])) ∧
      check_if_binary "fw.bin" "fw.bin" true = (.ok (true, "fw.bin"), []) ∧
      check_if_binary "fw.hex" "fw.hex" true =
        (.error (.valueError "Given file was .hex, but not allowed to convert"), []) ∧
      check_if_binary "fw.BIN" "fw.BIN" true = (.ok (false, "fw.BIN"), []) ∧
      check_if_binary "fw.Hex" "fw.Hex" true = (.ok (false, "fw.Hex"), []) := by
  refine ⟨?_, rfl, rfl, rfl, rfl⟩
  intro p bf d h1 h2
  simp [check_if_binary, h1, h2]

theorem C10_case_sensitive_dispatch_witness :
    check_if_binary "fw.BIN" "fw.elf" false = (.ok (false, "fw.elf"), []) :=
  C10_case_sensitive_dispatch.1 "fw.elf" "fw.BIN" false (by decide) (by decide)

end Miniboot
